import Mathlib

/-!
Verification of the Real-time-Marketplace server (`src/main.go`).

The Go program keeps an in-memory inventory (`Store.stocks : map[string]Stock`),
serves CRUD requests on `/api/stock` (`handleStock`), a read-all on
`/api/stocks` (`handleGetStocks`), and fans change events out to websocket
subscribers through a broadcast hub (`Hub.run`).

Shallow embedding choices:
* `Stock.Price` is a `float64` in Go, but the program performs no arithmetic
  on it — it is decoded, stored and re-encoded unchanged — so it is modelled
  as `Rat`, which represents every decimal literal exactly.
* JSON decoding of the request body is modelled by an `Option Stock` argument
  (`none` = decode failure), and `uuid.New().String()` by an explicit
  `newId : String` argument; uuid's guarantees (non-empty, not colliding with
  any stored id) become hypotheses where a claim needs them.
* The Go map is modelled as an association list with at most one binding per
  key; map assignment and `delete` are `insertKey` / `eraseKey`.
* The hub's client set is modelled as a list of `Client`s, each carrying the
  set of messages on which `WriteJSON` would fail (`bad`) and the messages
  delivered to it so far (`received`).
-/

namespace Marketplace

/-- Mirrors Go `type Stock struct { ID string; Item string; Price float64 }`
from `src/main.go`. -/
structure Stock where
  id : String
  item : String
  price : Rat
deriving DecidableEq, Repr

/-- The JSON keys of `Stock`, as fixed by its struct tags
`json:"id"`, `json:"item"`, `json:"price"` in `src/main.go`. -/
def stockJsonKeys : List String := ["id", "item", "price"]

/-- Mirrors Go `type WebSocketMessage struct { Type string; Payload Stock }`
(tags `json:"type"`, `json:"payload"`). -/
structure WebSocketMessage where
  type : String
  payload : Stock
deriving DecidableEq, Repr

/-- The store's map `map[string]Stock`, as an association list holding at most
one binding per key. -/
abbrev StoreMap : Type := List (String × Stock)

/-- Go `delete(s.stocks, k)`: drop the binding at `k` (no-op when absent). -/
def eraseKey (m : StoreMap) (k : String) : StoreMap :=
  List.filter (fun p => p.1 ≠ k) m

/-- Go map assignment `s.stocks[k] = v`: bind `k` to `v`, replacing any
previous binding. -/
def insertKey (m : StoreMap) (k : String) (v : Stock) : StoreMap :=
  (k, v) :: eraseKey m k

/-- Go map read `s.stocks[k]` (with its ok-flag folded into `Option`). -/
def lookupKey : StoreMap → String → Option Stock
  | [], _ => none
  | p :: rest, k => if p.1 = k then some p.2 else lookupKey rest k

/-- Mirrors `handleGetStocks` (`src/main.go:105-116`): collect all values of
the map into a list (Go iteration order is unspecified; the model fixes the
list order, which no claim depends on). -/
def getStocks (m : StoreMap) : List Stock :=
  List.map Prod.snd m

/-- The HTTP method switched on in `handleStock` (`r.Method`). -/
inductive Method where
  | post
  | put
  | delete
  | other
deriving DecidableEq, Repr

/-- The caller-visible outcome of `handleStock`: `ok s` is a 200 response whose
body encodes `s`; `invalidInput` is the 400 `http.Error`; `methodNotAllowed`
is the 405 `http.Error`. -/
inductive HandleResult where
  | ok (response : Stock)
  | invalidInput
  | methodNotAllowed
deriving DecidableEq, Repr

/-- Everything `handleStock` does: the response written, the store map after
the request, and the messages sent into `hub.broadcast` (empty or a
singleton). -/
structure HandleOutcome where
  result : HandleResult
  store : StoreMap
  published : List WebSocketMessage
deriving DecidableEq

/-- Mirrors `handleStock` (`src/main.go:119-172`).  `newId` is the value
`uuid.New().String()` would return, `body` the result of decoding the request
body (`none` = decode error). -/
def handleStock (newId : String) (method : Method) (body : Option Stock)
    (store : StoreMap) : HandleOutcome :=
  match body with
  | none => ⟨.invalidInput, store, []⟩
  | some stock =>
    match method with
    | .post =>
      let stock' : Stock := { stock with id := newId }
      ⟨.ok stock', insertKey store stock'.id stock', [⟨"CREATE", stock'⟩]⟩
    | .put =>
      if stock.id = "" then ⟨.invalidInput, store, []⟩
      else ⟨.ok stock, insertKey store stock.id stock, [⟨"UPDATE", stock⟩]⟩
    | .delete =>
      if stock.id = "" then ⟨.invalidInput, store, []⟩
      else ⟨.ok stock, eraseKey store stock.id, [⟨"DELETE", stock⟩]⟩
    | .other => ⟨.methodNotAllowed, store, []⟩

/-- One websocket subscriber in `h.clients`: `cid` identifies the connection,
`bad` is the set of messages on which `client.WriteJSON` would return an
error, `received` the messages written to it so far. -/
structure Client where
  cid : Nat
  bad : List WebSocketMessage
  received : List WebSocketMessage
deriving DecidableEq, Repr

/-- Whether `client.WriteJSON(msg)` fails for this client. -/
def wfails (c : Client) (msg : WebSocketMessage) : Bool :=
  decide (msg ∈ c.bad)

/-- One iteration of the body of `Hub.run` (`src/main.go:59-67`): walk the
client set; a successful write appends `msg` to that client's `received`; a
failed write closes the client and deletes it from the set.  Returns the
surviving clients and the clients closed during this event. -/
def deliverEvent (msg : WebSocketMessage) : List Client → List Client × List Client
  | [] => ([], [])
  | c :: rest =>
    if wfails c msg then
      ((deliverEvent msg rest).1, c :: (deliverEvent msg rest).2)
    else
      ({ c with received := c.received ++ [msg] } :: (deliverEvent msg rest).1,
       (deliverEvent msg rest).2)

/-- The `Hub.run` loop (`src/main.go:55-69`) consuming the finite event
sequence `events` in order, starting from client set `cs`. -/
def runHub (events : List WebSocketMessage) (cs : List Client) : List Client :=
  List.foldl (fun acc e => (deliverEvent e acc).1) cs events

/-! ## Lemmas about the store map -/

lemma lookupKey_insertKey_self (m : StoreMap) (k : String) (v : Stock) :
    lookupKey (insertKey m k v) k = some v := by
  simp [insertKey, lookupKey]

lemma lookupKey_eraseKey_ne (m : StoreMap) (k k' : String) (h : k' ≠ k) :
    lookupKey (eraseKey m k) k' = lookupKey m k' := by
  induction m with
  | nil => rfl
  | cons p rest ih =>
    by_cases h1 : p.1 = k
    · have hd : eraseKey (p :: rest) k = eraseKey rest k := by
        simp [eraseKey, List.filter_cons, h1]
      have h2 : p.1 ≠ k' := fun he => h (he ▸ h1)
      rw [hd, ih]
      simp [lookupKey, h2]
    · have hd : eraseKey (p :: rest) k = p :: eraseKey rest k := by
        simp [eraseKey, List.filter_cons, h1]
      rw [hd]
      by_cases h2 : p.1 = k'
      · simp [lookupKey, h2]
      · simp [lookupKey, h2, ih]

lemma lookupKey_insertKey_ne (m : StoreMap) (k : String) (v : Stock) (k' : String)
    (h : k' ≠ k) : lookupKey (insertKey m k v) k' = lookupKey m k' := by
  have h1 : k ≠ k' := fun he => h he.symm
  simp [insertKey, lookupKey, h1, lookupKey_eraseKey_ne m k k' h]

lemma keys_ne_of_lookupKey_none {m : StoreMap} {k : String}
    (h : lookupKey m k = none) : ∀ p ∈ m, p.1 ≠ k := by
  induction m with
  | nil => simp
  | cons p rest ih =>
    intro q hq
    simp only [lookupKey] at h
    by_cases h1 : p.1 = k
    · rw [if_pos h1] at h; exact absurd h (by simp)
    · rw [if_neg h1] at h
      rcases List.mem_cons.mp hq with he | hm
      · exact he ▸ h1
      · exact ih h q hm

lemma eraseKey_of_lookupKey_none {m : StoreMap} {k : String}
    (h : lookupKey m k = none) : eraseKey m k = m := by
  have hall := keys_ne_of_lookupKey_none h
  unfold eraseKey
  rw [List.filter_eq_self]
  intro p hp
  simpa using hall p hp

/-! ## Lemmas about the broadcast loop -/

lemma deliverEvent_mem_rem {msg : WebSocketMessage} {cs : List Client} {c : Client}
    (hc : c ∈ cs) (hok : wfails c msg = false) :
    { c with received := c.received ++ [msg] } ∈ (deliverEvent msg cs).1 := by
  induction cs with
  | nil => cases hc
  | cons c₀ rest ih =>
    rcases List.mem_cons.mp hc with he | hm
    · subst he
      simp [deliverEvent, hok]
    · cases hf : wfails c₀ msg
      · simp only [deliverEvent, hf, Bool.false_eq_true, if_false, List.mem_cons]
        exact Or.inr (ih hm)
      · simp only [deliverEvent, hf, if_true]
        exact ih hm

lemma deliverEvent_mem_closed {msg : WebSocketMessage} {cs : List Client} {c : Client}
    (hc : c ∈ cs) (hf : wfails c msg = true) :
    c ∈ (deliverEvent msg cs).2 := by
  induction cs with
  | nil => cases hc
  | cons c₀ rest ih =>
    rcases List.mem_cons.mp hc with he | hm
    · subst he
      simp [deliverEvent, hf]
    · cases hf₀ : wfails c₀ msg
      · simp only [deliverEvent, hf₀, Bool.false_eq_true, if_false]
        exact ih hm
      · simp only [deliverEvent, hf₀, if_true, List.mem_cons]
        exact Or.inr (ih hm)

lemma deliverEvent_rem_cid_mem {msg : WebSocketMessage} {cs : List Client} :
    ∀ c' ∈ (deliverEvent msg cs).1, c'.cid ∈ List.map Client.cid cs := by
  induction cs with
  | nil => simp [deliverEvent]
  | cons c₀ rest ih =>
    intro c' hc'
    cases hf₀ : wfails c₀ msg
    · simp only [deliverEvent, hf₀, Bool.false_eq_true, if_false, List.mem_cons] at hc'
      rcases hc' with he | hm
      · subst he
        simp
      · simpa using Or.inr (ih c' hm)
    · simp only [deliverEvent, hf₀, if_true] at hc'
      simpa using Or.inr (ih c' hc')

lemma deliverEvent_rem_cid_ne {msg : WebSocketMessage} {cs : List Client} {c : Client}
    (hnd : (List.map Client.cid cs).Nodup) (hc : c ∈ cs) (hf : wfails c msg = true) :
    ∀ c' ∈ (deliverEvent msg cs).1, c'.cid ≠ c.cid := by
  induction cs with
  | nil => cases hc
  | cons c₀ rest ih =>
    rw [List.map_cons, List.nodup_cons] at hnd
    intro c' hc'
    rcases List.mem_cons.mp hc with he | hm
    · subst he
      have := deliverEvent_rem_cid_mem c' hc'
      cases hf₀ : wfails c msg
      · rw [hf₀] at hf; cases hf
      · simp only [deliverEvent, hf₀, if_true] at hc'
        exact fun heq => hnd.1 (heq ▸ deliverEvent_rem_cid_mem c' hc')
    · have hcid : c.cid ∈ List.map Client.cid rest := List.mem_map.mpr ⟨c, hm, rfl⟩
      cases hf₀ : wfails c₀ msg
      · simp only [deliverEvent, hf₀, Bool.false_eq_true, if_false, List.mem_cons] at hc'
        rcases hc' with he | hmm
        · subst he
          exact fun heq => hnd.1 (heq ▸ hcid)
        · exact ih hnd.2 hm c' hmm
      · simp only [deliverEvent, hf₀, if_true] at hc'
        exact ih hnd.2 hm c' hc'

/-! ## Claim theorems -/

/-- C1, counterexample: with the store holding record `⟨"a", "X", 1⟩` under id
`"a"`, a DELETE whose decoded body is `⟨"a", "Y", 2⟩` responds with the request
body `⟨"a", "Y", 2⟩`, which differs from the record as it existed in the store
prior to removal — the handler never reads the prior record. -/
theorem C1_counterexample :
    lookupKey [("a", ⟨"a", "X", 1⟩)] "a" = some ⟨"a", "X", 1⟩ ∧
    (handleStock "fresh" .delete (some ⟨"a", "Y", 2⟩)
        [("a", ⟨"a", "X", 1⟩)]).result = .ok ⟨"a", "Y", 2⟩ ∧
    (⟨"a", "Y", 2⟩ : Stock) ≠ ⟨"a", "X", 1⟩ := by
  refine ⟨rfl, rfl, ?_⟩
  decide

/-- C1, amended: for every DELETE request carrying a non-empty id, the
operation returns to the caller the decoded request body itself (only its id
is consulted, to remove the binding at that id) — not the record as it
existed in the store prior to removal. -/
theorem C1_delete_echoes_request_body (newId : String) (s : Stock)
    (store : StoreMap) (h : s.id ≠ "") :
    (handleStock newId .delete (some s) store).result = .ok s ∧
    (handleStock newId .delete (some s) store).store = eraseKey store s.id := by
  simp [handleStock, h]

/-- C1, witness for the amended theorem at a concrete input. -/
theorem C1_delete_echoes_request_body_witness :
    (handleStock "n" .delete (some ⟨"a", "Y", 2⟩) [("a", ⟨"a", "X", 1⟩)]).result
        = .ok ⟨"a", "Y", 2⟩ ∧
    (handleStock "n" .delete (some ⟨"a", "Y", 2⟩) [("a", ⟨"a", "X", 1⟩)]).store
        = eraseKey [("a", ⟨"a", "X", 1⟩)] "a" :=
  C1_delete_echoes_request_body "n" ⟨"a", "Y", 2⟩ [("a", ⟨"a", "X", 1⟩)]
    (by decide)

/-- C8: a delete request naming a non-empty id absent from the store succeeds
(the response is the 200 echo, not an error) and leaves the store — in
particular its size — unchanged. -/
theorem C8_delete_absent_is_noop (newId : String) (s : Stock) (store : StoreMap)
    (hid : s.id ≠ "") (habs : lookupKey store s.id = none) :
    (handleStock newId .delete (some s) store).result = .ok s ∧
    (handleStock newId .delete (some s) store).store = store ∧
    ((handleStock newId .delete (some s) store).store).length = store.length := by
  have he := eraseKey_of_lookupKey_none habs
  refine ⟨by simp [handleStock, hid], by simp [handleStock, hid, he], ?_⟩
  simp [handleStock, hid, he]

/-- C8, witness: deleting absent id `"a"` from a store holding only `"b"`. -/
theorem C8_delete_absent_is_noop_witness :
    (handleStock "n" .delete (some ⟨"a", "Y", 2⟩) [("b", ⟨"b", "B", 3⟩)]).result
        = .ok ⟨"a", "Y", 2⟩ ∧
    (handleStock "n" .delete (some ⟨"a", "Y", 2⟩) [("b", ⟨"b", "B", 3⟩)]).store
        = [("b", ⟨"b", "B", 3⟩)] ∧
    ((handleStock "n" .delete (some ⟨"a", "Y", 2⟩) [("b", ⟨"b", "B", 3⟩)]).store).length
        = [("b", (⟨"b", "B", 3⟩ : Stock))].length :=
  C8_delete_absent_is_noop "n" ⟨"a", "Y", 2⟩ [("b", ⟨"b", "B", 3⟩)]
    (by decide) (by decide)

/-- C9: every DELETE with a non-empty id publishes a `DELETE` change event to
the hub and returns a success response, for every store — in particular also
when no record with that id exists; neither the publish nor the response is
conditioned on the id being present. -/
theorem C9_delete_publishes_unconditionally (newId : String) (s : Stock)
    (store : StoreMap) (hid : s.id ≠ "") :
    (handleStock newId .delete (some s) store).result = .ok s ∧
    (handleStock newId .delete (some s) store).published = [⟨"DELETE", s⟩] := by
  simp [handleStock, hid]

/-- C9, witness: at the empty store, where the id is certainly absent. -/
theorem C9_delete_publishes_unconditionally_witness :
    (handleStock "n" .delete (some ⟨"a", "Y", 2⟩) []).result = .ok ⟨"a", "Y", 2⟩ ∧
    (handleStock "n" .delete (some ⟨"a", "Y", 2⟩) []).published
        = [⟨"DELETE", ⟨"a", "Y", 2⟩⟩] :=
  C9_delete_publishes_unconditionally "n" ⟨"a", "Y", 2⟩ [] (by decide)

/-- C10: on CREATE the client-supplied id in the decoded body is ignored — the
response, the stored record and the broadcast payload all carry the
server-minted id `newId` in its place, whatever id the body contained. -/
theorem C10_create_overwrites_client_id (newId : String) (s : Stock)
    (store : StoreMap) :
    (handleStock newId .post (some s) store).result = .ok { s with id := newId } ∧
    (handleStock newId .post (some s) store).published
        = [⟨"CREATE", { s with id := newId }⟩] ∧
    lookupKey (handleStock newId .post (some s) store).store newId
        = some { s with id := newId } := by
  refine ⟨rfl, rfl, ?_⟩
  simp [handleStock, lookupKey_insertKey_self]

/-- C2: an update request whose body decodes fails with `InvalidInput` exactly
when its id is empty; with a non-empty id the record at that id is overwritten
with the given fields — a new record is inserted when none existed (upsert) —
and every other key's binding is untouched. -/
theorem C2_update_upsert (newId : String) (s : Stock) (store : StoreMap) :
    ((handleStock newId .put (some s) store).result = .invalidInput ↔ s.id = "") ∧
    (s.id ≠ "" →
      (handleStock newId .put (some s) store).result = .ok s ∧
      lookupKey (handleStock newId .put (some s) store).store s.id = some s ∧
      ∀ k, k ≠ s.id →
        lookupKey (handleStock newId .put (some s) store).store k
            = lookupKey store k) := by
  by_cases h : s.id = ""
  · simp [handleStock, h]
  · refine ⟨by simp [handleStock, h], fun _ => ⟨by simp [handleStock, h], ?_, ?_⟩⟩
    · simp [handleStock, h, lookupKey_insertKey_self]
    · intro k hk
      simp only [handleStock, h, if_false, if_neg h]
      exact lookupKey_insertKey_ne store s.id s k hk

/-- C2, witness: updating id `"a"` absent from the store inserts it (upsert). -/
theorem C2_update_upsert_witness :
    lookupKey (handleStock "n" .put (some ⟨"a", "W", 3⟩) ([] : StoreMap)).store "a"
        = some ⟨"a", "W", 3⟩ :=
  ((C2_update_upsert "n" ⟨"a", "W", 3⟩ []).2 (by decide)).2.1

/-- C3: on every error path — a body that fails to decode (any method), or an
update/delete whose decoded id is empty — the handler returns `InvalidInput`,
the store map is exactly the one it started with, and nothing is sent to the
hub's broadcast channel. -/
theorem C3_errors_have_no_side_effects (newId : String) (method : Method)
    (store : StoreMap) :
    handleStock newId method none store
        = ⟨.invalidInput, store, []⟩ ∧
    (∀ s : Stock, s.id = "" → method = .put ∨ method = .delete →
      handleStock newId method (some s) store
          = ⟨.invalidInput, store, []⟩) := by
  refine ⟨rfl, fun s hs hm => ?_⟩
  rcases hm with h | h <;> subst h <;> simp [handleStock, hs]

/-- C3, witness: an empty-id update against a non-empty store. -/
theorem C3_errors_have_no_side_effects_witness :
    handleStock "n" .put (some ⟨"", "W", 1⟩) [("b", ⟨"b", "B", 2⟩)]
        = ⟨.invalidInput, [("b", ⟨"b", "B", 2⟩)], []⟩ :=
  (C3_errors_have_no_side_effects "n" .put [("b", ⟨"b", "B", 2⟩)]).2
    ⟨"", "W", 1⟩ rfl (Or.inl rfl)

/-- C4: when the minted uuid is non-empty and collides with no key of the
store (the guarantee the program takes from the uuid library, stated here as
hypotheses), and every stored record sits under its own id (the invariant the
handlers maintain), create returns the stored item carrying that fresh id: it
is non-empty, differs from the id of every item already in the store, and a
snapshot taken immediately after contains exactly that item at that id. -/
theorem C4_create_mints_fresh_id (newId : String) (s : Stock) (store : StoreMap)
    (hne : newId ≠ "") (hfresh : lookupKey store newId = none)
    (hinv : ∀ p ∈ store, (p.2).id = p.1) :
    (handleStock newId .post (some s) store).result = .ok { s with id := newId } ∧
    ({ s with id := newId } : Stock).id ≠ "" ∧
    (∀ t ∈ getStocks store, t.id ≠ ({ s with id := newId } : Stock).id) ∧
    { s with id := newId } ∈ getStocks (handleStock newId .post (some s) store).store ∧
    lookupKey (handleStock newId .post (some s) store).store newId
        = some { s with id := newId } := by
  refine ⟨rfl, hne, ?_, ?_, ?_⟩
  · intro t ht
    rcases List.mem_map.mp ht with ⟨p, hp, hpt⟩
    have h1 := keys_ne_of_lookupKey_none hfresh p hp
    have h2 := hinv p hp
    exact fun he => h1 (by rw [← h2, hpt, he])
  · simp [handleStock, getStocks, insertKey]
  · simp [handleStock, lookupKey_insertKey_self]

/-- C4, witness: minting id `"u1"` over a store holding id `"b"`. -/
theorem C4_create_mints_fresh_id_witness :
    (handleStock "u1" .post (some ⟨"", "W", 3⟩) [("b", ⟨"b", "B", 2⟩)]).result
        = .ok ⟨"u1", "W", 3⟩ ∧
    (Stock.id ⟨"u1", "W", 3⟩) ≠ "" ∧
    (∀ t ∈ getStocks [("b", ⟨"b", "B", 2⟩)], t.id ≠ Stock.id ⟨"u1", "W", 3⟩) ∧
    (⟨"u1", "W", 3⟩ : Stock) ∈
      getStocks (handleStock "u1" .post (some ⟨"", "W", 3⟩) [("b", ⟨"b", "B", 2⟩)]).store ∧
    lookupKey (handleStock "u1" .post (some ⟨"", "W", 3⟩) [("b", ⟨"b", "B", 2⟩)]).store "u1"
        = some ⟨"u1", "W", 3⟩ :=
  C4_create_mints_fresh_id "u1" ⟨"", "W", 3⟩ [("b", ⟨"b", "B", 2⟩)]
    (by decide) (by decide) (by decide)

/-- C5, counterexample: the wire shape of a stock record is fixed by the
struct tags to the keys `id`, `item`, `price`; it is not
`{id, name, unitPrice, quantity}` — there is no `name`, `unitPrice` or
`quantity` key at all. -/
theorem C5_counterexample :
    stockJsonKeys ≠ ["id", "name", "unitPrice", "quantity"] ∧
    "name" ∉ stockJsonKeys ∧ "unitPrice" ∉ stockJsonKeys ∧
    "quantity" ∉ stockJsonKeys ∧
    "item" ∈ stockJsonKeys ∧ "price" ∈ stockJsonKeys := by
  decide

/-- C5, amended: a stock record has the shape
`{ id: string, item: string, price: number }`; creating
`{item: "Widget", price: 9.99}` yields a response carrying the assigned id `X`
(the minted `newId`) such that read-all contains `{id: X, item: "Widget",
price: 9.99}`, and the broadcast carries `{type: "CREATE", payload: {id: X, ...}}`. -/
theorem C5_shape_and_roundtrip (newId : String) (store : StoreMap) :
    stockJsonKeys = ["id", "item", "price"] ∧
    (handleStock newId .post (some ⟨"", "Widget", 9.99⟩) store).result
        = .ok ⟨newId, "Widget", 9.99⟩ ∧
    (⟨newId, "Widget", 9.99⟩ : Stock) ∈
      getStocks (handleStock newId .post (some ⟨"", "Widget", 9.99⟩) store).store ∧
    (handleStock newId .post (some ⟨"", "Widget", 9.99⟩) store).published
        = [⟨"CREATE", ⟨newId, "Widget", 9.99⟩⟩] := by
  refine ⟨rfl, rfl, ?_, rfl⟩
  simp [handleStock, getStocks, insertKey]

/-- C6: during one event of the broadcast loop, over a client set with
distinct connection identities, every client whose write fails is closed
(collected among the closed connections) and is gone from the surviving
registry, while every client whose write succeeds is still delivered the
event (it survives with the event appended to its received stream) — a
failure elsewhere in the iteration does not abort delivery to the rest. -/
theorem C6_write_failure_is_isolated (msg : WebSocketMessage) (cs : List Client)
    (hnd : (List.map Client.cid cs).Nodup) :
    ∀ c ∈ cs,
      (wfails c msg = true →
        c ∈ (deliverEvent msg cs).2 ∧
        ∀ c' ∈ (deliverEvent msg cs).1, c'.cid ≠ c.cid) ∧
      (wfails c msg = false →
        { c with received := c.received ++ [msg] } ∈ (deliverEvent msg cs).1) :=
  fun c hc =>
    ⟨fun hf => ⟨deliverEvent_mem_closed hc hf, deliverEvent_rem_cid_ne hnd hc hf⟩,
     fun hok => deliverEvent_mem_rem hc hok⟩

/-- C6, witness: client 1 fails on the event and is closed and dropped,
client 2 still receives it. -/
theorem C6_write_failure_is_isolated_witness :
    ((⟨1, [⟨"E1", ⟨"", "", 0⟩⟩], []⟩ : Client) ∈
      (deliverEvent ⟨"E1", ⟨"", "", 0⟩⟩
        [⟨1, [⟨"E1", ⟨"", "", 0⟩⟩], []⟩, ⟨2, [], []⟩]).2 ∧
     ∀ c' ∈ (deliverEvent ⟨"E1", ⟨"", "", 0⟩⟩
        [⟨1, [⟨"E1", ⟨"", "", 0⟩⟩], []⟩, ⟨2, [], []⟩]).1,
       c'.cid ≠ (1 : Nat)) ∧
    (⟨2, [], [⟨"E1", ⟨"", "", 0⟩⟩]⟩ : Client) ∈
      (deliverEvent ⟨"E1", ⟨"", "", 0⟩⟩
        [⟨1, [⟨"E1", ⟨"", "", 0⟩⟩], []⟩, ⟨2, [], []⟩]).1 :=
  ⟨(C6_write_failure_is_isolated ⟨"E1", ⟨"", "", 0⟩⟩
      [⟨1, [⟨"E1", ⟨"", "", 0⟩⟩], []⟩, ⟨2, [], []⟩] (by decide)
      ⟨1, [⟨"E1", ⟨"", "", 0⟩⟩], []⟩ (by decide)).1 (by decide),
   (C6_write_failure_is_isolated ⟨"E1", ⟨"", "", 0⟩⟩
      [⟨1, [⟨"E1", ⟨"", "", 0⟩⟩], []⟩, ⟨2, [], []⟩] (by decide)
      ⟨2, [], []⟩ (by decide)).2 (by decide)⟩

/-- C7: a subscriber registered before a sequence of events is published, and
whose connection never fails across them, ends with exactly that sequence
appended to its received stream — every event delivered once, in publish
order, none duplicated, none reordered. -/
theorem C7_delivery_in_publish_order (events : List WebSocketMessage)
    (cs : List Client) (c : Client) (hc : c ∈ cs)
    (hok : ∀ e ∈ events, wfails c e = false) :
    { c with received := c.received ++ events } ∈ runHub events cs := by
  induction events generalizing cs c with
  | nil => simpa using hc
  | cons e es ih =>
    have h1 : wfails c e = false := hok e (List.mem_cons_self _ _)
    have h2 := deliverEvent_mem_rem hc h1
    have h3 : ∀ e' ∈ es, wfails { c with received := c.received ++ [e] } e' = false :=
      fun e' he' => hok e' (List.mem_cons_of_mem _ he')
    have h4 := ih _ _ h2 h3
    simpa [runHub, List.append_assoc] using h4

/-- C7, witness: subscriber 2 survives events E1, E2, E3 (while subscriber 1
breaks at E2) and receives them in exactly that order. -/
theorem C7_delivery_in_publish_order_witness :
    (⟨2, [], [⟨"E1", ⟨"", "", 0⟩⟩, ⟨"E2", ⟨"", "", 0⟩⟩, ⟨"E3", ⟨"", "", 0⟩⟩]⟩ : Client) ∈
      runHub [⟨"E1", ⟨"", "", 0⟩⟩, ⟨"E2", ⟨"", "", 0⟩⟩, ⟨"E3", ⟨"", "", 0⟩⟩]
        [⟨1, [⟨"E2", ⟨"", "", 0⟩⟩], []⟩, ⟨2, [], []⟩] :=
  C7_delivery_in_publish_order
    [⟨"E1", ⟨"", "", 0⟩⟩, ⟨"E2", ⟨"", "", 0⟩⟩, ⟨"E3", ⟨"", "", 0⟩⟩]
    [⟨1, [⟨"E2", ⟨"", "", 0⟩⟩], []⟩, ⟨2, [], []⟩]
    ⟨2, [], []⟩ (by decide) (by decide)

end Marketplace
